import Mathlib

/-!
Verification of the S3 cross-region-replication setup and verification tool.

The source is a pair of Go programs built on the AWS SDK v1:
* `s3_crr_setup.go` — ensures the destination bucket exists, enables
  versioning, provisions an IAM replication role, and reconciles a
  replication rule into the source bucket's configuration
  (`ensureBucketExists`, `enableBucketVersioning`, `ensureReplicationRole`,
  `putReplicationConfiguration`);
* `verify_replication_extended.go` — uploads a probe object, discovers
  destinations from the replication configuration, resolves each
  destination's region, and polls for the probe with a bounded budget.

The embedding is shallow: each AWS call site is a field of an environment
record holding that call's outcome (`Except GoError _`), matching the Go
code's single, unretried invocation of each call.  Go pointer-valued
struct fields become `Option`, Go `int64` becomes `Int`, and the Go
`error` results of each top-level function become explicit error
inductives whose constructors correspond one-to-one to the distinct
`return`/`fmt.Errorf` sites of that function.
-/

/-- A Go `error` value as the AWS SDK produces them: either an
`awserr.Error` (which carries a code the source inspects via
`aerr.Code()`) or a plain error.  The type assertion
`err.(awserr.Error)` in the source corresponds to matching on the
`aws` constructor. -/
inductive GoError where
  | aws (code message : String)
  | generic (message : String)
deriving DecidableEq, Repr

/-- `s3.Destination` restricted to the single field the program reads or
writes (`Bucket *string`); other SDK fields are never touched. -/
structure Destination where
  bucket : Option String
deriving DecidableEq, Repr

/-- `s3.ReplicationRuleFilter` restricted to `Prefix *string`, the only
field the program sets. -/
structure ReplicationRuleFilter where
  prefixFilter : Option String
deriving DecidableEq, Repr

/-- `s3.DeleteMarkerReplication` with its `Status *string` field. -/
structure DeleteMarkerReplication where
  status : Option String
deriving DecidableEq, Repr

/-- `s3.ReplicationRule` restricted to the fields the program reads or
writes: `ID`, `Status`, `Priority`, `Filter`, `Destination`,
`DeleteMarkerReplication`.  Pointer fields are `Option`; `Priority` is a
Go `*int64`, embedded as `Option Int`. -/
structure ReplicationRule where
  id : Option String
  status : Option String
  priority : Option Int
  filter : Option ReplicationRuleFilter
  destination : Option Destination
  deleteMarkerReplication : Option DeleteMarkerReplication
deriving DecidableEq, Repr

/-- `s3.ReplicationConfiguration`: `Role *string` and `Rules
[]*ReplicationRule`. -/
structure ReplicationConfiguration where
  role : Option String
  rules : List ReplicationRule
deriving DecidableEq, Repr

/-- The `maxPriority` loop of `putReplicationConfiguration`
(s3_crr_setup.go): starts at `int64(0)` and takes `*r.Priority` whenever
it is non-nil and strictly greater than the accumulator. -/
def maxPriority (rules : List ReplicationRule) : Int :=
  rules.foldl
    (fun acc r =>
      match r.priority with
      | some p => if p > acc then p else acc
      | none => acc)
    0

/-- The spec's description of the same quantity: the maximum priority
over existing rules with rules lacking a priority counted as priority 0
(and 0 for the empty rule list).  Stated from the spec's words, to be
compared with `maxPriority` from the source. -/
def maxPrioritySpec (rules : List ReplicationRule) : Int :=
  (rules.map (fun r => r.priority.getD 0)).foldl max 0

/-- The match condition of the update loop in
`putReplicationConfiguration`: `r.Destination != nil &&
r.Destination.Bucket != nil && *r.Destination.Bucket == dstARN` (the
built destination's bucket pointer is always non-nil). -/
def matchesDest (dstARN : String) (r : ReplicationRule) : Bool :=
  match r.destination with
  | some d =>
    match d.bucket with
    | some b => b == dstARN
    | none => false
  | none => false

/-- The replication rule literal built at both the update and the append
sites of `putReplicationConfiguration`: derived id, status `Enabled`,
empty prefix filter, delete-marker replication `Disabled`, and the given
priority. -/
def mkUpsertRule (ruleID : String) (p : Int) (destination : Destination) :
    ReplicationRule where
  id := some ruleID
  status := some "Enabled"
  priority := some p
  filter := some { prefixFilter := some "" }
  destination := some destination
  deleteMarkerReplication := some { status := some "Disabled" }

/-- The `for i, r := range existingRules` update loop: replace the first
rule matching the destination in place (keeping its priority when
present, else `maxPriority+1`) and `break`; `none` when no rule
matches (the Go `updated` flag stays false). -/
def replaceFirst (dstARN ruleID : String) (mp : Int)
    (destination : Destination) :
    List ReplicationRule → Option (List ReplicationRule)
  | [] => none
  | r :: rs =>
    if matchesDest dstARN r then
      some (mkUpsertRule ruleID
              (match r.priority with
               | some p => p
               | none => mp + 1)
              destination :: rs)
    else
      (replaceFirst dstARN ruleID mp destination rs).map (fun rs2 => r :: rs2)

/-- The rule-list reconciliation of `putReplicationConfiguration`:
compute `dstARN`, `ruleID` and `maxPriority`, replace a matching rule in
place if one exists, otherwise append a fresh rule at priority
`maxPriority + 1`. -/
def upsertRules (dstBucket : String) (existingRules : List ReplicationRule) :
    List ReplicationRule :=
  let dstARN := "arn:aws:s3:::" ++ dstBucket
  let ruleID := "replicate-to-" ++ dstBucket
  let destination : Destination := { bucket := some dstARN }
  let mp := maxPriority existingRules
  match replaceFirst dstARN ruleID mp destination existingRules with
  | some updatedRules => updatedRules
  | none => existingRules ++ [mkUpsertRule ruleID (mp + 1) destination]

/-- The destination reference of a rule: the bucket ARN reachable through
its (possibly nil) `Destination`. -/
def destRef (r : ReplicationRule) : Option String :=
  match r.destination with
  | some d => d.bucket
  | none => none

/-- No two rules of the list carry the same (present) destination
reference.  Rules without a usable destination reference (`destRef =
none`) share nothing. -/
def noDupDests (rules : List ReplicationRule) : Prop :=
  (rules.map destRef).Pairwise (fun a b => a = none ∨ a ≠ b)

instance : DecidablePred noDupDests := fun rules =>
  inferInstanceAs
    (Decidable ((rules.map destRef).Pairwise (fun a b => a = none ∨ a ≠ b)))

/-- Outcomes of the two S3 calls `putReplicationConfiguration` makes:
`GetBucketReplication` (error, or an output whose
`ReplicationConfiguration` may be nil) and `PutBucketReplication`
(given the configuration being written). -/
structure ReplS3Env where
  getBucketReplication : Except GoError (Option ReplicationConfiguration)
  putBucketReplication : ReplicationConfiguration → Except GoError Unit

/-- The single error-return site of `putReplicationConfiguration`:
`fmt.Errorf("PutBucketReplication failed: %w", err)`. -/
inductive PutReplErr where
  | putFailed (e : GoError)
deriving DecidableEq, Repr

/-- The `existingRules` taken by `putReplicationConfiguration` from the
fetch: the configuration's rules only when `err == nil &&
getOut.ReplicationConfiguration != nil`, and the empty slice in every
other case — fetch errors of any kind included. -/
def fetchedRules (env : ReplS3Env) : List ReplicationRule :=
  match env.getBucketReplication with
  | .ok (some cfg) => cfg.rules
  | _ => []

/-- `putReplicationConfiguration(s3client, srcBucket, dstBucket,
roleArn)`: fetch the current configuration (absence or failure giving an
empty rule list), reconcile the rule list for the destination, and write
back the full configuration with the role; only the write can fail. -/
def putReplicationConfiguration (env : ReplS3Env)
    (srcBucket dstBucket roleArn : String) : Except PutReplErr Unit :=
  let _ := srcBucket
  let newRules := upsertRules dstBucket (fetchedRules env)
  match env.putBucketReplication { role := some roleArn, rules := newRules } with
  | .ok _ => .ok ()
  | .error e => .error (.putFailed e)

/-- `s3.CreateBucketInput` as `ensureBucketExists` builds it: the bucket
name, and a `CreateBucketConfiguration.LocationConstraint` present
exactly when one was supplied. -/
structure CreateBucketInput where
  bucket : String
  locationConstraint : Option String
deriving DecidableEq, Repr

/-- The create input built by `ensureBucketExists`: the location
constraint is set only when the region is not `us-east-1`. -/
def mkCreateBucketInput (bucketName region : String) : CreateBucketInput where
  bucket := bucketName
  locationConstraint := if region == "us-east-1" then none else some region

/-- Outcomes of the three S3 calls `ensureBucketExists` makes:
`HeadBucket`, `CreateBucket` (given the input built from name and
region) and `WaitUntilBucketExists`. -/
structure BucketEnv where
  headBucket : Except GoError Unit
  createBucket : CreateBucketInput → Except GoError Unit
  waitUntilBucketExists : Except GoError Unit

/-- The distinct error-return sites of `ensureBucketExists`:
the `fmt.Errorf("bucket %s already exists and is owned by another
account", bucketName)` return, the bare `return err` after
`CreateBucket`, and the `fmt.Errorf("bucket creation started but wait
failed: %w", err)` return. -/
inductive EnsureBucketError where
  | ownershipConflict (bucket : String)
  | createFailed (e : GoError)
  | waitFailed (e : GoError)
deriving DecidableEq, Repr

/-- The part of `ensureBucketExists` after the `HeadBucket` probe has
failed: attempt `CreateBucket`, treating `BucketAlreadyOwnedByYou` as
success and `BucketAlreadyExists` as an ownership conflict, then wait
for the bucket to exist. -/
def createAndWait (env : BucketEnv) (bucketName region : String) :
    Except EnsureBucketError Unit :=
  match env.createBucket (mkCreateBucketInput bucketName region) with
  | .ok _ =>
    match env.waitUntilBucketExists with
    | .ok _ => .ok ()
    | .error we => .error (.waitFailed we)
  | .error ce =>
    match ce with
    | .aws code _ =>
      if code == "BucketAlreadyOwnedByYou" then .ok ()
      else if code == "BucketAlreadyExists" then
        .error (.ownershipConflict bucketName)
      else .error (.createFailed ce)
    | .generic _ => .error (.createFailed ce)

/-- `ensureBucketExists(s3client, bucketName, region)`: a successful
`HeadBucket` probe returns immediately; any probe failure (the source
inspects the error only via a discarded `_ = awsErr`) falls through to
the create-and-wait path. -/
def ensureBucketExists (env : BucketEnv) (bucketName region : String) :
    Except EnsureBucketError Unit :=
  match env.headBucket with
  | .ok _ => .ok ()
  | .error _ => createAndWait env bucketName region

/-- Outcomes of the three IAM calls `ensureReplicationRole` makes:
`CreateRole` and `GetRole` yield the role's ARN on success;
`PutRolePolicy` attaches the inline policy.  The JSON policy documents
and the deterministic policy name feed only these calls' inputs and are
not inspected by any branch, so they are elided from the environment. -/
structure RoleEnv where
  createRole : Except GoError String
  getRole : Except GoError String
  putRolePolicy : Except GoError Unit

/-- The distinct error-return sites of `ensureReplicationRole`:
`fmt.Errorf("role exists but failed to get role: %w", gerr)`,
`fmt.Errorf("CreateRole error: %w", err)` (reached from both the
other-awserr branch and the non-awserr branch), and
`fmt.Errorf("failed to put role policy: %w", err)`. -/
inductive RoleError where
  | getRoleFailed (e : GoError)
  | createRoleFailed (e : GoError)
  | putPolicyFailed (e : GoError)
deriving DecidableEq, Repr

/-- Whether a `CreateRole` error is the IAM `EntityAlreadyExists` code
(`iam.ErrCodeEntityAlreadyExistsException`), the one error
`ensureReplicationRole` recovers from. -/
def isEntityAlreadyExists : GoError → Bool
  | .aws code _ => code == "EntityAlreadyExists"
  | .generic _ => false

/-- The tail of `ensureReplicationRole` once a role ARN is in hand:
`PutRolePolicy`, then (after the fixed 5-second settle sleep, which has
no observable effect in this pure embedding) return the ARN. -/
def attachPolicyAndReturn (env : RoleEnv) (roleArn : String) :
    Except RoleError String :=
  match env.putRolePolicy with
  | .ok _ => .ok roleArn
  | .error e => .error (.putPolicyFailed e)

/-- `ensureReplicationRole(iamSvc, roleName, srcBucket, dstBucket,
dstRegion)`: attempt `CreateRole`; on `EntityAlreadyExists` adopt the
existing role via `GetRole`; any other creation error is returned
wrapped, without consulting `GetRole`; then attach the inline policy. -/
def ensureReplicationRole (env : RoleEnv) : Except RoleError String :=
  match env.createRole with
  | .ok arn => attachPolicyAndReturn env arn
  | .error e =>
    match e with
    | .aws code _ =>
      if code == "EntityAlreadyExists" then
        match env.getRole with
        | .ok arn => attachPolicyAndReturn env arn
        | .error g => .error (.getRoleFailed g)
      else .error (.createRoleFailed e)
    | .generic _ => .error (.createRoleFailed e)

/-- The destination-region detection of the extended verifier
(`verify_replication_extended` variant that auto-discovers
destinations): start from the source region; when `GetBucketLocation`
succeeds and its `LocationConstraint` is non-nil, take it, mapping the
empty constraint to `us-east-1` and the legacy `EU` alias to
`eu-west-1`; on lookup failure or a nil constraint keep the source
region. -/
def detectRegion (srcRegion : String)
    (locationResult : Except GoError (Option String)) : String :=
  match locationResult with
  | .ok (some c) =>
    let r1 := if c == "" then "us-east-1" else c
    if r1 == "EU" then "eu-west-1" else r1
  | _ => srcRegion

/-- The verifier's poll loop, `for i := 0; i < 12; i++`, counted by
remaining iterations.  Each iteration sleeps 10 seconds and then issues
one `HeadObject` presence check; `probe i` is whether the check of the
iteration with 0-based index `i` succeeds (`err == nil`).  Returns the
final `found` flag and the number of presence checks performed. -/
def pollLoop (probe : Nat → Bool) (i : Nat) : Nat → Bool × Nat
  | 0 => (false, 0)
  | remaining + 1 =>
    if probe i then (true, 1)
    else
      let r := pollLoop probe (i + 1) remaining
      (r.1, r.2 + 1)

/-- The full poll of one destination: 12 iterations starting at index
0.  The loop's outcome feeds only a printed summary line; neither
branch after it calls `log.Fatalf`. -/
def verifyPoll (probe : Nat → Bool) : Bool × Nat :=
  pollLoop probe 0 12

/-- Inputs of the per-destination check of the extended verifier: the
source region (the fallback), the `GetBucketLocation` outcome for the
destination, and the destination's `HeadObject` outcomes. -/
structure DestCheckEnv where
  srcRegion : String
  locationResult : Except GoError (Option String)
  probe : Nat → Bool

/-- What the per-destination check reports: the region it settled on,
whether the probe object was found, and how many presence checks ran. -/
structure DestReport where
  region : String
  found : Bool
  checks : Nat
deriving DecidableEq, Repr

/-- The per-destination flow of the extended verifier: resolve the
region (falling back to the source region), then poll; the flow always
produces a report and has no error outcome of its own. -/
def checkDestination (env : DestCheckEnv) : DestReport :=
  let region := detectRegion env.srcRegion env.locationResult
  let r := verifyPoll env.probe
  { region := region, found := r.1, checks := r.2 }

/-!
Supporting lemmas about the rule reconciliation.
-/

/-- A rule matches the destination exactly when its destination
reference is that ARN. -/
theorem matchesDest_eq_true_iff (dstARN : String) (r : ReplicationRule) :
    matchesDest dstARN r = true ↔ destRef r = some dstARN := by
  unfold matchesDest destRef
  cases r.destination with
  | none => simp
  | some d =>
    obtain ⟨ob⟩ := d
    cases ob with
    | none => simp
    | some b => simp [beq_iff_eq]

/-- The destination reference of the rule literal built by the upsert is
the bucket of the destination it was handed. -/
theorem destRef_mkUpsertRule (ruleID : String) (p : Int) (d : Destination) :
    destRef (mkUpsertRule ruleID p d) = d.bucket := rfl

/-- Unfolding of `upsertRules` with its local definitions substituted. -/
theorem upsertRules_def (dstBucket : String) (rules : List ReplicationRule) :
    upsertRules dstBucket rules =
      match replaceFirst ("arn:aws:s3:::" ++ dstBucket)
          ("replicate-to-" ++ dstBucket) (maxPriority rules)
          { bucket := some ("arn:aws:s3:::" ++ dstBucket) } rules with
      | some updatedRules => updatedRules
      | none =>
        rules ++ [mkUpsertRule ("replicate-to-" ++ dstBucket)
          (maxPriority rules + 1)
          { bucket := some ("arn:aws:s3:::" ++ dstBucket) }] := rfl

/-- The update loop reports no match exactly when no rule of the list
matches the destination. -/
theorem replaceFirst_eq_none_iff (dstARN ruleID : String) (mp : Int)
    (d : Destination) (l : List ReplicationRule) :
    replaceFirst dstARN ruleID mp d l = none ↔
      ∀ r ∈ l, matchesDest dstARN r = false := by
  induction l with
  | nil => simp [replaceFirst]
  | cons r rs ih =>
    by_cases h : matchesDest dstARN r = true
    · simp [replaceFirst, h]
    · have h0 : matchesDest dstARN r = false := by
        cases hm : matchesDest dstARN r
        · rfl
        · exact absurd hm h
      simp [replaceFirst, h0, ih]

/-- When the update loop replaces a rule, the position-wise destination
references of the list are unchanged (the replacing rule targets the
same destination the replaced one did). -/
theorem replaceFirst_map_destRef (dstARN ruleID : String) (mp : Int)
    (d : Destination) (hd : d.bucket = some dstARN) :
    ∀ l l2, replaceFirst dstARN ruleID mp d l = some l2 →
      l2.map destRef = l.map destRef := by
  intro l
  induction l with
  | nil => intro l2 h; simp [replaceFirst] at h
  | cons r rs ih =>
    intro l2 h
    by_cases hm : matchesDest dstARN r = true
    · simp [replaceFirst, hm] at h
      have hr : destRef r = some dstARN := (matchesDest_eq_true_iff dstARN r).mp hm
      rw [← h]
      simp [destRef_mkUpsertRule, hd, hr]
    · have h0 : matchesDest dstARN r = false := by
        cases hmm : matchesDest dstARN r
        · rfl
        · exact absurd hmm hm
      simp [replaceFirst, h0, Option.map_eq_some'] at h
      obtain ⟨rs2, hrs2, hl2⟩ := h
      rw [← hl2]
      simp [ih rs2 hrs2]

/-- When the first match sits after a prefix of non-matching rules, the
update loop replaces it in place, keeping its priority when present. -/
theorem replaceFirst_append (dstARN ruleID : String) (mp : Int)
    (d : Destination) (pre post : List ReplicationRule) (r : ReplicationRule)
    (hpre : ∀ x ∈ pre, matchesDest dstARN x = false)
    (hr : matchesDest dstARN r = true) :
    replaceFirst dstARN ruleID mp d (pre ++ r :: post) =
      some (pre ++ mkUpsertRule ruleID
        (match r.priority with | some p => p | none => mp + 1) d :: post) := by
  induction pre with
  | nil => simp [replaceFirst, hr]
  | cons x xs ih =>
    have hx : matchesDest dstARN x = false := hpre x (by simp)
    have ihx := ih (fun y hy => hpre y (by simp [hy]))
    simp [replaceFirst, hx, ihx]

/-- The source's `maxPriority` fold agrees with a `max`-fold over the
priorities with missing priorities read as 0, for any non-negative
accumulator. -/
theorem maxPriority_fold_eq (l : List ReplicationRule) :
    ∀ acc : Int, 0 ≤ acc →
      l.foldl
        (fun acc r =>
          match r.priority with
          | some p => if p > acc then p else acc
          | none => acc)
        acc
      = (l.map (fun r => r.priority.getD 0)).foldl max acc := by
  induction l with
  | nil => intro acc _; rfl
  | cons r rs ih =>
    intro acc h
    simp only [List.foldl_cons, List.map_cons]
    have hstep :
        (match r.priority with
         | some p => if p > acc then p else acc
         | none => acc)
        = max acc (r.priority.getD 0) := by
      cases r.priority with
      | none => simp [max_eq_left h]
      | some p =>
        simp only [Option.getD_some]
        by_cases hpa : p > acc
        · rw [if_pos hpa, max_eq_right (le_of_lt hpa)]
        · rw [if_neg hpa, max_eq_left (le_of_not_lt hpa)]
    rw [hstep]
    exact ih _ (le_trans h (le_max_left _ _))

/-- The source's `maxPriority` computes exactly the spec's description
of it: the maximum over existing rules' priorities with rules lacking a
priority counted as priority 0 (and 0 when there are no rules). -/
theorem maxPriority_eq_spec (rules : List ReplicationRule) :
    maxPriority rules = maxPrioritySpec rules :=
  maxPriority_fold_eq rules 0 le_rfl

/-- A pre-existing rule targeting destination bucket `A` at priority 1,
used to exercise the reconciliation theorems on concrete inputs. -/
def sampleRuleA : ReplicationRule where
  id := some "rule-a"
  status := some "Enabled"
  priority := some 1
  filter := some { prefixFilter := some "" }
  destination := some { bucket := some "arn:aws:s3:::A" }
  deleteMarkerReplication := some { status := some "Disabled" }

/-- A pre-existing rule targeting destination bucket `B` at priority 2. -/
def sampleRuleB : ReplicationRule where
  id := some "rule-b"
  status := some "Enabled"
  priority := some 2
  filter := some { prefixFilter := some "" }
  destination := some { bucket := some "arn:aws:s3:::B" }
  deleteMarkerReplication := some { status := some "Disabled" }

/-- C2: for every starting rule list in which no two rules share a
destination reference, the rule list produced by the upsert of
`putReplicationConfiguration` for any destination again contains no two
rules with the same destination reference: a rule targeting the
requested destination is merged into the existing one rather than
duplicated. -/
theorem upsert_preserves_noDupDests (rules : List ReplicationRule)
    (dstBucket : String) (h : noDupDests rules) :
    noDupDests (upsertRules dstBucket rules) := by
  rw [upsertRules_def]
  cases hrep : replaceFirst ("arn:aws:s3:::" ++ dstBucket)
      ("replicate-to-" ++ dstBucket) (maxPriority rules)
      { bucket := some ("arn:aws:s3:::" ++ dstBucket) } rules with
  | some l2 =>
    unfold noDupDests at h ⊢
    rw [replaceFirst_map_destRef _ _ _ _ rfl rules l2 hrep]
    exact h
  | none =>
    have hnone := (replaceFirst_eq_none_iff _ _ _ _ rules).mp hrep
    unfold noDupDests at h ⊢
    rw [List.map_append, List.pairwise_append]
    refine ⟨h, by simp, ?_⟩
    intro a ha b hb
    simp only [List.map_cons, List.map_nil, List.mem_singleton] at hb
    subst hb
    rw [destRef_mkUpsertRule]
    simp only [List.mem_map] at ha
    obtain ⟨r, hrmem, rfl⟩ := ha
    right
    intro hcontra
    have hmatch : matchesDest ("arn:aws:s3:::" ++ dstBucket) r = true :=
      (matchesDest_eq_true_iff _ r).mpr hcontra
    rw [hnone r hrmem] at hmatch
    exact Bool.false_ne_true hmatch

/-- Witness for C2 at a concrete two-rule configuration. -/
theorem upsert_preserves_noDupDests_witness :
    noDupDests [sampleRuleA, sampleRuleB] ∧
    noDupDests (upsertRules "B" [sampleRuleA, sampleRuleB]) :=
  ⟨by decide, upsert_preserves_noDupDests [sampleRuleA, sampleRuleB] "B" (by decide)⟩

/-- C3: when no existing rule targets the requested destination
(including the empty configuration), the upsert appends exactly one new
rule at the end, at priority `maxPriority + 1` with `maxPriority` the
maximum priority of the existing rules (missing priorities counted as
0), and leaves every pre-existing rule and its position unchanged. -/
theorem upsert_appends_new_rule (rules : List ReplicationRule)
    (dstBucket : String)
    (h : ∀ r ∈ rules, matchesDest ("arn:aws:s3:::" ++ dstBucket) r = false) :
    upsertRules dstBucket rules =
      rules ++
        [{ id := some ("replicate-to-" ++ dstBucket),
           status := some "Enabled",
           priority := some (maxPrioritySpec rules + 1),
           filter := some { prefixFilter := some "" },
           destination := some { bucket := some ("arn:aws:s3:::" ++ dstBucket) },
           deleteMarkerReplication := some { status := some "Disabled" } }] := by
  rw [upsertRules_def, (replaceFirst_eq_none_iff _ _ _ _ rules).mpr h,
    maxPriority_eq_spec]
  rfl

/-- Witness for C3: upserting new destination `C` over rules at
priorities 1 and 2 appends a rule at priority 3 and keeps A and B. -/
theorem upsert_appends_new_rule_witness :
    upsertRules "C" [sampleRuleA, sampleRuleB] =
      [sampleRuleA, sampleRuleB] ++
        [{ id := some "replicate-to-C",
           status := some "Enabled",
           priority := some 3,
           filter := some { prefixFilter := some "" },
           destination := some { bucket := some "arn:aws:s3:::C" },
           deleteMarkerReplication := some { status := some "Disabled" } }] := by
  rw [upsert_appends_new_rule [sampleRuleA, sampleRuleB] "C" (by decide)]
  decide

/-- C4: when an existing rule targets the requested destination, the
upsert replaces it at its original list position by a rule whose id is
derived from the destination, with status Enabled, empty prefix filter,
delete-marker replication Disabled, and the replaced rule's priority
when it had one (else `maxPriority + 1`); all other rules keep their
fields and positions. -/
theorem upsert_replaces_matching_rule (pre post : List ReplicationRule)
    (r : ReplicationRule) (dstBucket : String)
    (hpre : ∀ x ∈ pre, matchesDest ("arn:aws:s3:::" ++ dstBucket) x = false)
    (hr : matchesDest ("arn:aws:s3:::" ++ dstBucket) r = true) :
    upsertRules dstBucket (pre ++ r :: post) =
      pre ++
        { id := some ("replicate-to-" ++ dstBucket),
          status := some "Enabled",
          priority := some (r.priority.getD
            (maxPrioritySpec (pre ++ r :: post) + 1)),
          filter := some { prefixFilter := some "" },
          destination := some { bucket := some ("arn:aws:s3:::" ++ dstBucket) },
          deleteMarkerReplication := some { status := some "Disabled" } } :: post := by
  rw [upsertRules_def, replaceFirst_append _ _ _ _ pre post r hpre hr,
    maxPriority_eq_spec]
  cases hp : r.priority with
  | some p => simp [mkUpsertRule, hp]
  | none => simp [mkUpsertRule, hp]

/-- Witness for C4: upserting destination `B` over rules A (priority 1)
and B (priority 2) replaces B in place, preserving priority 2, with A
untouched. -/
theorem upsert_replaces_matching_rule_witness :
    upsertRules "B" [sampleRuleA, sampleRuleB] =
      [sampleRuleA] ++
        { id := some "replicate-to-B",
          status := some "Enabled",
          priority := some 2,
          filter := some { prefixFilter := some "" },
          destination := some { bucket := some "arn:aws:s3:::B" },
          deleteMarkerReplication := some { status := some "Disabled" } } :: [] :=
  (upsert_replaces_matching_rule [sampleRuleA] [] sampleRuleB "B"
    (by decide) (by decide)).trans (by decide)

/-- Counterexample to C1: a fetch failure whose error code is
`AccessDenied` — not the "no configuration exists" code
(`ReplicationConfigurationNotFoundError`) — is nevertheless swallowed:
`putReplicationConfiguration` treats it as an empty rule set and
returns success once the write succeeds, instead of surfacing the fetch
failure as a fatal error. -/
theorem putRepl_fetch_error_surfaced_cex :
    putReplicationConfiguration
      { getBucketReplication := .error (.aws "AccessDenied" "Access Denied"),
        putBucketReplication := fun _ => .ok () }
      "src" "dst" "role" = .ok () := rfl

/-- C1 (amended): every fetch failure of the current replication
configuration — whatever its cause — is swallowed and treated as an
empty rule set, and every write-back failure is surfaced to the caller
as a fatal error without retry. -/
theorem putRepl_failure_semantics (env : ReplS3Env)
    (src dst role : String) :
    (∀ e, env.getBucketReplication = .error e → fetchedRules env = []) ∧
    (∀ we,
      env.putBucketReplication
          { role := some role, rules := upsertRules dst (fetchedRules env) } =
        .error we →
      putReplicationConfiguration env src dst role =
        .error (.putFailed we)) ∧
    (env.putBucketReplication
        { role := some role, rules := upsertRules dst (fetchedRules env) } =
      .ok () →
      putReplicationConfiguration env src dst role = .ok ()) := by
  refine ⟨?_, ?_, ?_⟩
  · intro e h
    simp [fetchedRules, h]
  · intro we h
    simp only [putReplicationConfiguration]
    rw [h]
  · intro h
    simp only [putReplicationConfiguration]
    rw [h]

/-- Witness for the amended C1: a fetch rejected with `AccessDenied` is
treated as the empty rule set, and a failing write surfaces as the
fatal `PutBucketReplication failed` error. -/
theorem putRepl_failure_semantics_witness :
    fetchedRules
        { getBucketReplication := .error (.aws "AccessDenied" "Access Denied"),
          putBucketReplication := fun _ => .error (.generic "boom") } = [] ∧
    putReplicationConfiguration
        { getBucketReplication := .error (.aws "AccessDenied" "Access Denied"),
          putBucketReplication := fun _ => .error (.generic "boom") }
        "src" "dst" "role" = .error (.putFailed (.generic "boom")) :=
  ⟨(putRepl_failure_semantics
      { getBucketReplication := .error (.aws "AccessDenied" "Access Denied"),
        putBucketReplication := fun _ => .error (.generic "boom") }
      "src" "dst" "role").1 (.aws "AccessDenied" "Access Denied") rfl,
   (putRepl_failure_semantics
      { getBucketReplication := .error (.aws "AccessDenied" "Access Denied"),
        putBucketReplication := fun _ => .error (.generic "boom") }
      "src" "dst" "role").2.1 (.generic "boom") rfl⟩

/-- C5: once the existence probe has failed, a creation attempt that
reports `BucketAlreadyOwnedByYou` is treated as success, and one that
reports `BucketAlreadyExists` (owned by another account) yields the
fatal ownership-conflict error, with no retry of the single creation
call. -/
theorem ensureBucket_conflict_semantics (env : BucketEnv)
    (bucketName region : String) (e : GoError) (m1 m2 : String)
    (hHead : env.headBucket = .error e) :
    (env.createBucket (mkCreateBucketInput bucketName region) =
        .error (.aws "BucketAlreadyOwnedByYou" m1) →
      ensureBucketExists env bucketName region = .ok ()) ∧
    (env.createBucket (mkCreateBucketInput bucketName region) =
        .error (.aws "BucketAlreadyExists" m2) →
      ensureBucketExists env bucketName region =
        .error (.ownershipConflict bucketName)) := by
  constructor
  · intro hc
    simp only [ensureBucketExists]
    rw [hHead]
    simp only [createAndWait]
    rw [hc]
    rfl
  · intro hc
    simp only [ensureBucketExists]
    rw [hHead]
    simp only [createAndWait]
    rw [hc]
    rfl

/-- Witness for C5 at two concrete environments: one where creation
reports the bucket is already owned by the caller, one where it is
owned by another account. -/
theorem ensureBucket_conflict_semantics_witness :
    ensureBucketExists
        { headBucket := .error (.aws "NotFound" "404"),
          createBucket := fun _ => .error (.aws "BucketAlreadyOwnedByYou" "ok"),
          waitUntilBucketExists := .ok () } "b" "us-west-2" = .ok () ∧
    ensureBucketExists
        { headBucket := .error (.aws "NotFound" "404"),
          createBucket := fun _ => .error (.aws "BucketAlreadyExists" "taken"),
          waitUntilBucketExists := .ok () } "b" "us-west-2" =
      .error (.ownershipConflict "b") :=
  ⟨(ensureBucket_conflict_semantics _ "b" "us-west-2"
      (.aws "NotFound" "404") "ok" "x" rfl).1 rfl,
   (ensureBucket_conflict_semantics _ "b" "us-west-2"
      (.aws "NotFound" "404") "x" "taken" rfl).2 rfl⟩

/-- C6: a role-creation failure with the `EntityAlreadyExists` code
falls back to a lookup by name and returns the existing role's ARN as
success (after the policy attachment), while any other creation failure
is returned as a fatal `CreateRole` error without retrying and without
consulting the lookup. -/
theorem ensureRole_conflict_semantics (env : RoleEnv) (m arn : String) :
    (env.createRole = .error (.aws "EntityAlreadyExists" m) →
      env.getRole = .ok arn → env.putRolePolicy = .ok () →
      ensureReplicationRole env = .ok arn) ∧
    (∀ e, env.createRole = .error e → isEntityAlreadyExists e = false →
      ensureReplicationRole env = .error (.createRoleFailed e) ∧
      ∀ g, ensureReplicationRole { env with getRole := g } =
        .error (.createRoleFailed e)) := by
  constructor
  · intro hc hg hp
    simp only [ensureReplicationRole]
    rw [hc]
    simp only []
    rw [if_pos (by rfl), hg]
    simp only [attachPolicyAndReturn]
    rw [hp]
  · intro e hc hne
    have key : ∀ env2 : RoleEnv, env2.createRole = .error e →
        ensureReplicationRole env2 = .error (.createRoleFailed e) := by
      intro env2 hc2
      simp only [ensureReplicationRole]
      rw [hc2]
      cases e with
      | generic msg => rfl
      | aws code msg =>
        simp only [isEntityAlreadyExists] at hne
        simp only []
        rw [if_neg (by simp [hne])]
    exact ⟨key env hc, fun g => key { env with getRole := g } hc⟩

/-- Witness for C6 at two concrete environments: adoption on
`EntityAlreadyExists`, and a fatal error on an `AccessDenied` creation
failure that ignores a would-be successful lookup. -/
theorem ensureRole_conflict_semantics_witness :
    ensureReplicationRole
        { createRole := .error (.aws "EntityAlreadyExists" "exists"),
          getRole := .ok "arn:aws:iam::1:role/r",
          putRolePolicy := .ok () } = .ok "arn:aws:iam::1:role/r" ∧
    ensureReplicationRole
        { createRole := .error (.aws "AccessDenied" "denied"),
          getRole := .ok "arn:aws:iam::1:role/r",
          putRolePolicy := .ok () } =
      .error (.createRoleFailed (.aws "AccessDenied" "denied")) :=
  ⟨(ensureRole_conflict_semantics _ "exists" "arn:aws:iam::1:role/r").1
      rfl rfl rfl,
   ((ensureRole_conflict_semantics
        { createRole := .error (.aws "AccessDenied" "denied"),
          getRole := .ok "arn:aws:iam::1:role/r",
          putRolePolicy := .ok () } "x" "y").2
      (.aws "AccessDenied" "denied") rfl rfl).1⟩

/-- C10: `ensureBucketExists` proceeds to the create-and-wait path
whenever the `HeadBucket` probe fails, whatever the failure — the
source discards the error after a vacuous `awserr` type assertion — and
only a successful probe short-circuits to success without a create
call. -/
theorem ensureBucket_probe_gate (env : BucketEnv)
    (bucketName region : String) :
    (∀ e, env.headBucket = .error e →
      ensureBucketExists env bucketName region =
        createAndWait env bucketName region) ∧
    (env.headBucket = .ok () →
      ensureBucketExists env bucketName region = .ok ()) := by
  constructor
  · intro e h
    simp only [ensureBucketExists]
    rw [h]
  · intro h
    simp only [ensureBucketExists]
    rw [h]

/-- Witness for C10: a permission-denied probe failure (not a
not-found) still leads to a creation attempt, whose success makes the
whole call succeed. -/
theorem ensureBucket_probe_gate_witness :
    ensureBucketExists
        { headBucket := .error (.aws "Forbidden" "403"),
          createBucket := fun _ => .ok (),
          waitUntilBucketExists := .ok () } "b" "us-west-2" =
      createAndWait
        { headBucket := .error (.aws "Forbidden" "403"),
          createBucket := fun _ => .ok (),
          waitUntilBucketExists := .ok () } "b" "us-west-2" :=
  (ensureBucket_probe_gate _ "b" "us-west-2").1 (.aws "Forbidden" "403") rfl

/-- When every remaining check fails, the poll loop runs its whole
budget and reports not-found with one check per iteration. -/
theorem pollLoop_all_false (probe : Nat → Bool) :
    ∀ n i, (∀ j, j < n → probe (i + j) = false) →
      pollLoop probe i n = (false, n) := by
  intro n
  induction n with
  | zero => intro i _; rfl
  | succ m ih =>
    intro i h
    have h0 : probe i = false := by
      have := h 0 (Nat.succ_pos m)
      simpa using this
    have hrest : ∀ j, j < m → probe (i + 1 + j) = false := by
      intro j hj
      have := h (j + 1) (by omega)
      rwa [show i + (j + 1) = i + 1 + j by omega] at this
    simp [pollLoop, h0, ih (i + 1) hrest]

/-- When the first successful check is the one at offset `k` within the
budget, the loop stops there, having performed `k + 1` checks. -/
theorem pollLoop_first_true (probe : Nat → Bool) :
    ∀ n i k, k < n → (∀ j, j < k → probe (i + j) = false) →
      probe (i + k) = true →
      pollLoop probe i n = (true, k + 1) := by
  intro n
  induction n with
  | zero => intro i k hk _ _; omega
  | succ m ih =>
    intro i k hk hbefore hfound
    cases k with
    | zero =>
      have h0 : probe i = true := by simpa using hfound
      simp [pollLoop, h0]
    | succ k2 =>
      have h0 : probe i = false := by
        have := hbefore 0 (Nat.succ_pos k2)
        simpa using this
      have hrest : ∀ j, j < k2 → probe (i + 1 + j) = false := by
        intro j hj
        have := hbefore (j + 1) (by omega)
        rwa [show i + (j + 1) = i + 1 + j by omega] at this
      have hfound2 : probe (i + 1 + k2) = true := by
        rwa [show i + (k2 + 1) = i + 1 + k2 by omega] at hfound
      simp [pollLoop, h0, ih (i + 1) k2 (by omega) hrest hfound2]

/-- C7: for a destination whose presence check always fails, the
verification poller performs exactly 12 checks (each preceded by its
10-second wait) and reports `found = false` — the poll's outcome is a
report value, not an error; for a destination whose check first
succeeds on the attempt with 0-based index `k` (attempt `k + 1 ≤ 12`),
the poller stops after that attempt and reports `found = true`. -/
theorem verifyPoll_bounded (probe : Nat → Bool) :
    ((∀ i, i < 12 → probe i = false) → verifyPoll probe = (false, 12)) ∧
    (∀ k, k < 12 → (∀ i, i < k → probe i = false) → probe k = true →
      verifyPoll probe = (true, k + 1)) := by
  constructor
  · intro h
    exact pollLoop_all_false probe 12 0 (fun j hj => by simpa using h j hj)
  · intro k hk hbefore hfound
    exact pollLoop_first_true probe 12 0 k hk
      (fun j hj => by simpa using hbefore j hj) (by simpa using hfound)

/-- Witness for C7: a probe that never succeeds yields 12 checks and
not-found; a probe first succeeding on the third check (0-based index
2) yields found after exactly 3 checks. -/
theorem verifyPoll_bounded_witness :
    verifyPoll (fun _ => false) = (false, 12) ∧
    verifyPoll (fun i => i == 2) = (true, 3) :=
  ⟨(verifyPoll_bounded (fun _ => false)).1 (fun _ _ => rfl),
   (verifyPoll_bounded (fun i => i == 2)).2 2 (by decide) (by decide) rfl⟩

/-- C8: a location lookup reporting the legacy empty location
constraint resolves to `us-east-1`, and the legacy `EU` alias resolves
to `eu-west-1`, whatever the verifier's source region. -/
theorem detectRegion_normalizes_aliases (srcRegion : String) :
    detectRegion srcRegion (.ok (some "")) = "us-east-1" ∧
    detectRegion srcRegion (.ok (some "EU")) = "eu-west-1" :=
  ⟨rfl, rfl⟩

/-- C9: when the destination's location lookup fails or returns no
location, the verifier silently falls back to the source region and
proceeds to poll; the per-destination flow produces a plain report and
the lookup failure is never surfaced as an error. -/
theorem checkDestination_lookup_fallback (env : DestCheckEnv)
    (h : (∃ e, env.locationResult = .error e) ∨ env.locationResult = .ok none) :
    checkDestination env =
      { region := env.srcRegion,
        found := (verifyPoll env.probe).1,
        checks := (verifyPoll env.probe).2 } := by
  simp only [checkDestination, detectRegion]
  rcases h with ⟨e, he⟩ | he <;> rw [he]

/-- Witness for C9: a failed lookup combined with a never-successful
probe still yields a plain report carrying the source region. -/
theorem checkDestination_lookup_fallback_witness :
    checkDestination
        { srcRegion := "us-east-1",
          locationResult := .error (.aws "AccessDenied" "denied"),
          probe := fun _ => false } =
      { region := "us-east-1", found := false, checks := 12 } :=
  (checkDestination_lookup_fallback
      { srcRegion := "us-east-1",
        locationResult := .error (.aws "AccessDenied" "denied"),
        probe := fun _ => false }
      (Or.inl ⟨.aws "AccessDenied" "denied", rfl⟩)).trans (by decide)
